import Mathlib

/-!
Verification of the ElgatoKeyLight2MQTT bridge core against its
specification.  The definitions below are a shallow embedding of
src/leglight/leglight.py (the device control client) and src/main.py
(registry merge, health cleanup, MQTT message dispatch).  Network I/O is
made explicit: each operation takes the device's response as a parameter
and returns the HTTP requests it issued as a trace.
-/

namespace ElgatoKeyLight

/-- Cached device status held on a LegLight object: the fields isOn,
isBrightness and isTemperature of leglight.py. -/
structure LightStatus where
  isOn : Int
  isBrightness : Int
  isTemperature : Int
deriving DecidableEq

/-- One registry entry: a LegLight object as stored in all_lights of
main.py, with its discovery-time location, the static metadata the
constructor fetched from /elgato/accessory-info, and the cached status. -/
structure Light where
  serialNumber : String
  address : String
  port : Nat
  productName : String
  firmwareVersion : String
  status : LightStatus
deriving DecidableEq

/-- One HTTP request issued by a LegLight method, identified by endpoint
and target location.  PUT payloads are always single-light updates; the
temperature PUT carries colorFit(kelvin) on the wire, a floating-point
encoding recorded here by its input kelvin. -/
inductive NetCall
  | getAccessoryInfo (address : String) (port : Nat)
  | headAccessoryInfo (address : String) (port : Nat)
  | getLights (address : String) (port : Nat)
  | putOn (address : String) (port : Nat) (val : Int)
  | putBrightness (address : String) (port : Nat) (level : Int)
  | putTemperature (address : String) (port : Nat) (kelvin : Int)
deriving DecidableEq

/-- Observable result of a LegLight command or of a dispatched message:
which early return the code takes and what it logs. -/
inductive Outcome
  | done
  | invalidValue
  | netError
  | unknownDevice
  | notResponding
  | badPayload
deriving DecidableEq

/-- postFit of leglight.py: int(round(1000000 * val ** -1, -2)).  Python
computes 1000000/val as a double and rounds it to the nearest hundred with
ties to even.  For positive val the exact rational 1000000/val lies at
least 1/val away from any fifty-boundary it does not hit exactly, which
dwarfs the double-rounding error of 1000000/val, so exact rational
rounding (implemented here over the integers) agrees with the float
computation.  val = 0 raises ZeroDivisionError in Python; the bridge never
reaches postFit with a non-positive native value, and the model returns 0
there. -/
def postFit (val : Int) : Int :=
  if val ≤ 0 then 0
  else
    let d : Int := 100 * val
    let q : Int := 1000000 / d
    let r : Int := 1000000 % d
    let up : Int :=
      if 2 * r < d then 0
      else if d < 2 * r then 1
      else if q % 2 = 0 then 0 else 1
    100 * (q + up)

/-- brightness of leglight.py: the 0..100 range check guards the PUT; in
range, the PUT is issued and the echoed brightness from the response
updates the cache, while a RequestException (resp = none) is caught and
leaves the cache untouched; out of range, only a warning is logged. -/
def LegLight.brightness (l : Light) (level : Int) (resp : Option Int) :
    Light × List NetCall × Outcome :=
  if 0 ≤ level ∧ level ≤ 100 then
    match resp with
    | some echoed =>
        ({ l with status := { l.status with isBrightness := echoed } },
         [NetCall.putBrightness l.address l.port level], Outcome.done)
    | none =>
        (l, [NetCall.putBrightness l.address l.port level], Outcome.netError)
  else
    (l, [], Outcome.invalidValue)

/-- color of leglight.py: the 2900..7000 range check guards the PUT; in
range, the PUT (carrying colorFit(temp)) is issued and the echoed native
temperature is decoded with postFit into the cache, while a
RequestException leaves the cache untouched; out of range, only a warning
is logged. -/
def LegLight.color (l : Light) (temp : Int) (resp : Option Int) :
    Light × List NetCall × Outcome :=
  if 2900 ≤ temp ∧ temp ≤ 7000 then
    match resp with
    | some echoedNative =>
        ({ l with status := { l.status with isTemperature := postFit echoedNative } },
         [NetCall.putTemperature l.address l.port temp], Outcome.done)
    | none =>
        (l, [NetCall.putTemperature l.address l.port temp], Outcome.netError)
  else
    (l, [], Outcome.invalidValue)

/-- on of leglight.py: PUT lights[0].on = 1; the echoed on-value updates
the cache, a RequestException leaves it untouched. -/
def LegLight.turnOn (l : Light) (resp : Option Int) : Light × List NetCall :=
  match resp with
  | some echoed =>
      ({ l with status := { l.status with isOn := echoed } },
       [NetCall.putOn l.address l.port 1])
  | none => (l, [NetCall.putOn l.address l.port 1])

/-- off of leglight.py: PUT lights[0].on = 0; the echoed on-value updates
the cache, a RequestException leaves it untouched. -/
def LegLight.turnOff (l : Light) (resp : Option Int) : Light × List NetCall :=
  match resp with
  | some echoed =>
      ({ l with status := { l.status with isOn := echoed } },
       [NetCall.putOn l.address l.port 0])
  | none => (l, [NetCall.putOn l.address l.port 0])

/-- Payload of GET /elgato/lights as info() reads it: lights[0], each
field looked up with a default (0, 0, 2900).  A whole-payload none stands
for a RequestException on the GET. -/
structure LightsPayload where
  onVal : Option Int
  brightness : Option Int
  temperature : Option Int
deriving DecidableEq

/-- Dictionary info() returns: on / brightness / temperature. -/
structure StatusDict where
  onVal : Int
  brightness : Int
  temperature : Int
deriving DecidableEq

/-- info of leglight.py: on success the three cache fields are rewritten
from the payload (temperature through postFit) and the fresh dictionary is
returned; on a RequestException nothing is assigned and the sentinel
dictionary of -1 values is returned. -/
def LegLight.info (l : Light) (resp : Option LightsPayload) :
    Light × List NetCall × StatusDict :=
  match resp with
  | some p =>
      let newStatus : LightStatus :=
        { isOn := p.onVal.getD 0
          isBrightness := p.brightness.getD 0
          isTemperature := postFit (p.temperature.getD 2900) }
      ({ l with status := newStatus },
       [NetCall.getLights l.address l.port],
       { onVal := newStatus.isOn, brightness := newStatus.isBrightness,
         temperature := newStatus.isTemperature })
  | none =>
      (l, [NetCall.getLights l.address l.port],
       { onVal := -1, brightness := -1, temperature := -1 })

/-- Network-level outcome of one HEAD probe to /elgato/accessory-info:
HTTP 200, another HTTP status, a RequestException, or any other exception
raised by the request. -/
inductive ProbeResult
  | ok
  | notOk
  | reqExc
  | otherExc
deriving DecidableEq

/-- Return value of ping of leglight.py as its caller sees it: status 200
gives True, any other status gives False, a RequestException is caught
inside ping and also gives False, and any other exception propagates to
the caller (modelled as the error case). -/
def pingResult : ProbeResult → Except Unit Bool
  | ProbeResult.ok => Except.ok true
  | ProbeResult.notOk => Except.ok false
  | ProbeResult.reqExc => Except.ok false
  | ProbeResult.otherExc => Except.error ()

/-- Lookup in the ping_failures dict of main.py with default 0, keyed by
the exact serialNumber string (not lowercased). -/
def getFailures (m : List (String × Nat)) (k : String) : Nat :=
  match m.find? (fun p => p.fst = k) with
  | some p => p.snd
  | none => 0

/-- Assignment into the ping_failures dict: overwrite the entry for the
key if present, otherwise add one. -/
def setFailures : List (String × Nat) → String → Nat → List (String × Nat)
  | [], k, v => [(k, v)]
  | p :: rest, k, v =>
      if p.fst = k then (k, v) :: rest else p :: setFailures rest k v

/-- is_light_responsive of main.py: return ping() when it does not raise;
when it raises, increment the light's entry in ping_failures and report
responsive while the incremented count is still below 3.  A ping that
merely returns False does not touch the counter. -/
def is_light_responsive (m : List (String × Nat)) (l : Light)
    (pr : ProbeResult) : Bool × List (String × Nat) :=
  match pingResult pr with
  | Except.ok b => (b, m)
  | Except.error _ =>
      let failures := getFailures m l.serialNumber + 1
      (decide (failures < 3), setFailures m l.serialNumber failures)

/-- Mutable state of KeyLight2MQTT that the modelled operations touch: the
registry list all_lights and the ping_failures dict.  The timing fields
last_light_discover and last_light_cleanup only gate when the passes run
(real time, not modelled); the theorems are about the bodies of the
passes. -/
structure MainState where
  all_lights : List Light
  ping_failures : List (String × Nat)
deriving DecidableEq

/-- Python str.lower() on the ASCII serial strings: the per-character
lowercase map.  Core String.toLower is this same map but does not reduce
inside the kernel, so the model maps over the character list directly. -/
def lowerStr (s : String) : String := String.mk (s.data.map Char.toLower)

/-- Condition under which _update_existing_light of main.py replaces an
entry: same serial number case-insensitively, and a different address or a
different port. -/
def wantsUpdate (newLight x : Light) : Prop :=
  lowerStr x.serialNumber = lowerStr newLight.serialNumber ∧
    (x.address ≠ newLight.address ∨ x.port ≠ newLight.port)

instance (newLight x : Light) : Decidable (wantsUpdate newLight x) := by
  unfold wantsUpdate
  infer_instance

/-- Loop of _update_existing_light of main.py, with the Python
for-statement semantics made explicit: the loop walks the list by index,
and when it replaces a light it removes the matched element (list.remove:
the first equal occurrence) and appends the new one at the end, after
which the index keeps running over the mutated list.  The recursion is
written with explicit fuel: the replace step keeps the list length (one
element removed, one appended), so fuel equal to the length at entry
exactly covers the run and the fuel-out branch coincides with the normal
index-past-the-end exit. -/
def updateLoop (newLight : Light) : Nat → Nat → List Light → List Light
  | 0, _, lights => lights
  | fuel + 1, i, lights =>
    if h : i < lights.length then
      if wantsUpdate newLight (lights.get ⟨i, h⟩) then
        updateLoop newLight fuel (i + 1)
          (lights.erase (lights.get ⟨i, h⟩) ++ [newLight])
      else
        updateLoop newLight fuel (i + 1) lights
    else
      lights

/-- Merge body of discover_lights of main.py for one discovered candidate:
a lowercased serial already present means update-in-place, otherwise the
candidate is appended.  The Python set all_serials always equals the set
of lowercased serials of the current list, so membership is tested on the
current list here. -/
def mergeLight (lights : List Light) (newLight : Light) : List Light :=
  if lowerStr newLight.serialNumber ∈ lights.map (fun l => lowerStr l.serialNumber) then
    updateLoop newLight lights.length 0 lights
  else
    lights ++ [newLight]

/-- Merge phase of discover_lights of main.py: fold the discovery snapshot
into all_lights.  The surrounding cache-interval gate and the try/except
around leglight.discover are timing and transport concerns; ping_failures
is not touched anywhere in discover_lights. -/
def discover_lights (s : MainState) (discovered : List Light) : MainState :=
  { s with all_lights := discovered.foldl mergeLight s.all_lights }

/-- First loop of cleanup_lights of main.py: probe every light in order,
collect the unresponsive ones (lights_to_remove), and reset the counter to
zero for each responsive one.  probes gives the HEAD outcome of each light
for this pass. -/
def cleanupLoop (probes : Light → ProbeResult) :
    List Light → List (String × Nat) → List Light × List (String × Nat)
  | [], m => ([], m)
  | l :: rest, m =>
      let step := is_light_responsive m l (probes l)
      let m2 := if step.fst then setFailures step.snd l.serialNumber 0 else step.snd
      let tail := cleanupLoop probes rest m2
      (if step.fst then tail.fst else l :: tail.fst, tail.snd)

/-- Body of cleanup_lights of main.py (its 5-minute interval gate is real
time and not modelled): after the probe loop, every collected light is
removed from all_lights with list.remove. -/
def cleanup_lights (probes : Light → ProbeResult) (s : MainState) : MainState :=
  let pass := cleanupLoop probes s.all_lights s.ping_failures
  { all_lights := pass.fst.foldl (fun acc l => acc.erase l) s.all_lights
    ping_failures := pass.snd }

/-- Python truthiness of the integers stored in the status dict: zero is
falsy, every other integer (including the -1 sentinel) is truthy. -/
def intTruthy (i : Int) : Bool := decide (i ≠ 0)

/-- set_light_power of main.py: turn the light on when asked on and the
fetched state says off, turn it off when asked off and the state is
truthy; otherwise do nothing.  The on/off methods catch their own request
errors, so this never raises. -/
def set_light_power (l : Light) (state : StatusDict) (power : String)
    (resp : Option Int) : Light × List NetCall :=
  if power = "on" ∧ ¬ intTruthy state.onVal then
    LegLight.turnOn l resp
  else if power = "off" ∧ intTruthy state.onVal then
    LegLight.turnOff l resp
  else
    (l, [])

/-- Device-side responses for the at most three HTTP requests one MQTT
message can cause: the ping HEAD outcome, the info GET payload, and the
echoed field of the single PUT (none = RequestException). -/
structure DeviceResponses where
  pingRes : ProbeResult
  lightsResp : Option LightsPayload
  putResp : Option Int

/-- Trace element for the dispatcher: an HTTP request to a device, or an
on-demand discovery request.  The handler never emits the latter; the
constructor exists so that its absence is expressible in theorems. -/
inductive Event
  | net (c : NetCall)
  | discoveryRequest (serial : String)
deriving DecidableEq

/-- In-place mutation of a LegLight object seen through the registry list:
the occurrences of the object's old field values are replaced by the new
ones. -/
def writeBack (lights : List Light) (old upd : Light) : List Light :=
  lights.map (fun l => if l = old then upd else l)

/-- mqtt_on_message of main.py after the topic split: what and serial are
the last two topic segments, value is the utf-8 payload.  int(value) is
modelled by String.toInt?; a failing parse raises ValueError in Python and
is caught by the handler's blanket except (the badPayload outcome).
Returns the new state, the events issued, and the outcome the logs show. -/
def mqtt_on_message (s : MainState) (what serial value : String)
    (dev : DeviceResponses) : MainState × List Event × Outcome :=
  match s.all_lights.find? (fun l => lowerStr l.serialNumber = lowerStr serial) with
  | none => (s, [], Outcome.unknownDevice)
  | some light =>
      let resp := is_light_responsive s.ping_failures light dev.pingRes
      let s1 : MainState := { s with ping_failures := resp.snd }
      let pingEvents : List Event :=
        [Event.net (NetCall.headAccessoryInfo light.address light.port)]
      if resp.fst = false then
        (s1, pingEvents, Outcome.notResponding)
      else
        let infoRes := LegLight.info light dev.lightsResp
        let light1 := infoRes.fst
        let state := infoRes.snd.snd
        let events1 := pingEvents ++ infoRes.snd.fst.map Event.net
        if what = "power" then
          let powerRes := set_light_power light1 state value dev.putResp
          ({ s1 with all_lights := writeBack s1.all_lights light powerRes.fst },
           events1 ++ powerRes.snd.map Event.net, Outcome.done)
        else if what = "brightness" then
          match value.toInt? with
          | none =>
              ({ s1 with all_lights := writeBack s1.all_lights light light1 },
               events1, Outcome.badPayload)
          | some v =>
              if state.brightness ≠ v then
                let res := LegLight.brightness light1 v dev.putResp
                ({ s1 with all_lights := writeBack s1.all_lights light res.fst },
                 events1 ++ res.snd.fst.map Event.net, res.snd.snd)
              else
                ({ s1 with all_lights := writeBack s1.all_lights light light1 },
                 events1, Outcome.done)
        else if what = "color" then
          match value.toInt? with
          | none =>
              ({ s1 with all_lights := writeBack s1.all_lights light light1 },
               events1, Outcome.badPayload)
          | some v =>
              if state.temperature ≠ v then
                let res := LegLight.color light1 v dev.putResp
                ({ s1 with all_lights := writeBack s1.all_lights light res.fst },
                 events1 ++ res.snd.fst.map Event.net, res.snd.snd)
              else
                ({ s1 with all_lights := writeBack s1.all_lights light light1 },
                 events1, Outcome.done)
        else
          ({ s1 with all_lights := writeBack s1.all_lights light light1 },
           events1, Outcome.done)

/-- Lowercased serial numbers of a registry list, in order. -/
def serialsLower (lights : List Light) : List String :=
  lights.map (fun l => lowerStr l.serialNumber)

/-- Registry invariant: no two entries share a serial case-insensitively. -/
def uniqueSerials (lights : List Light) : Prop :=
  (serialsLower lights).Nodup

instance (lights : List Light) : Decidable (uniqueSerials lights) := by
  unfold uniqueSerials
  infer_instance

/-- Recognizer for the on-demand discovery trace element. -/
def isDiscoveryRequest : Event → Bool
  | Event.discoveryRequest _ => true
  | Event.net _ => false

/-- Concrete device record used by the witnesses and counterexamples. -/
def sampleLight : Light :=
  { serialNumber := "AB12"
    address := "192.168.1.10"
    port := 9123
    productName := "Elgato Key Light"
    firmwareVersion := "1.0.3"
    status := { isOn := 1, isBrightness := 20, isTemperature := 4000 } }

/-- The same device as sampleLight after relocating: same serial, new
address, and the status plus metadata the discovery constructor freshly
fetched at the new location. -/
def movedLight : Light :=
  { serialNumber := "AB12"
    address := "10.0.0.9"
    port := 9123
    productName := "Elgato Key Light"
    firmwareVersion := "1.0.6"
    status := { isOn := 0, isBrightness := 50, isTemperature := 2900 } }

/-- A discovery candidate that reproduces sampleLight's serial, address
and port exactly (only discovery-fetched fields could differ). -/
def rediscoveredLight : Light :=
  { serialNumber := "AB12"
    address := "192.168.1.10"
    port := 9123
    productName := "Elgato Key Light"
    firmwareVersion := "1.0.3"
    status := { isOn := 0, isBrightness := 50, isTemperature := 2900 } }

/-- Device responses used by witnesses: everything succeeds. -/
def sampleResponses : DeviceResponses :=
  { pingRes := ProbeResult.ok
    lightsResp := some { onVal := some 1, brightness := some 20, temperature := some 250 }
    putResp := some 50 }

/-- C6: for every brightness value outside [0,100] and color temperature
outside [2900,7000], the corresponding set operation issues no HTTP
request, reports the invalid-value rejection, and leaves every cached
status field (isOn, isBrightness, isTemperature) unchanged. -/
theorem brightness_color_out_of_range_rejected
    (l : Light) (level temp : Int) (respB respC : Option Int)
    (hb : level < 0 ∨ 100 < level) (hc : temp < 2900 ∨ 7000 < temp) :
    LegLight.brightness l level respB = (l, [], Outcome.invalidValue) ∧
    LegLight.color l temp respC = (l, [], Outcome.invalidValue) := by
  constructor
  · unfold LegLight.brightness
    rw [if_neg (by omega)]
  · unfold LegLight.color
    rw [if_neg (by omega)]

/-- Witness for brightness_color_out_of_range_rejected at brightness 150
and color 1000 on a concrete device record. -/
theorem brightness_color_out_of_range_rejected_witness :
    (((150 : Int) < 0 ∨ 100 < (150 : Int)) ∧ ((1000 : Int) < 2900 ∨ 7000 < (1000 : Int))) ∧
    LegLight.brightness sampleLight 150 (some 5) = (sampleLight, [], Outcome.invalidValue) ∧
    LegLight.color sampleLight 1000 (some 5) = (sampleLight, [], Outcome.invalidValue) :=
  ⟨⟨by decide, by decide⟩,
   brightness_color_out_of_range_rejected sampleLight 150 1000 (some 5) (some 5)
     (by decide) (by decide)⟩

/-- C10: when the GET behind info() fails with a request error, info does
not raise: it returns the all-minus-one sentinel dictionary and leaves the
cached fields unchanged; the sentinel -1 lies outside both valid ranges,
so a caller comparing it against a commanded value observes an
out-of-range status rather than a real one. -/
theorem info_request_error_sentinel (l : Light) :
    LegLight.info l none =
      (l, [NetCall.getLights l.address l.port],
        { onVal := -1, brightness := -1, temperature := -1 }) ∧
    ¬ (0 ≤ (-1 : Int) ∧ (-1 : Int) ≤ 100) ∧
    ¬ (2900 ≤ (-1 : Int) ∧ (-1 : Int) ≤ 7000) :=
  ⟨rfl, by decide, by decide⟩

/-- C4: a message whose target serial matches no registry entry
case-insensitively triggers no HTTP request, leaves the whole state
untouched, and reports the unknown-device outcome. -/
theorem dispatch_unknown_serial_no_call
    (s : MainState) (what serial value : String) (dev : DeviceResponses)
    (h : ∀ l ∈ s.all_lights, lowerStr l.serialNumber ≠ lowerStr serial) :
    mqtt_on_message s what serial value dev = (s, [], Outcome.unknownDevice) := by
  unfold mqtt_on_message
  have hf : s.all_lights.find? (fun l => lowerStr l.serialNumber = lowerStr serial) = none := by
    rw [List.find?_eq_none]
    intro l hl
    simpa using h l hl
  rw [hf]

/-- Witness for dispatch_unknown_serial_no_call: serial ZZ99 against a
registry holding only AB12. -/
theorem dispatch_unknown_serial_no_call_witness :
    (∀ l ∈ ({ all_lights := [sampleLight], ping_failures := [] } : MainState).all_lights,
        lowerStr l.serialNumber ≠ lowerStr "ZZ99") ∧
    mqtt_on_message { all_lights := [sampleLight], ping_failures := [] } "power" "ZZ99" "on"
        sampleResponses =
      ({ all_lights := [sampleLight], ping_failures := [] }, [], Outcome.unknownDevice) :=
  ⟨by decide,
   dispatch_unknown_serial_no_call _ "power" "ZZ99" "on" sampleResponses (by decide)⟩

/-- C5 counterexample: dispatching for serial SN999, absent from the
registry, ends with the unknown-device outcome and an empty trace — the
handler emits no on-demand discovery request (count 0, not the claimed
rate-limited request) and makes no second resolution attempt. -/
theorem dispatch_no_discovery_request_cex :
    mqtt_on_message { all_lights := [sampleLight], ping_failures := [] } "power" "SN999" "on"
        sampleResponses =
      ({ all_lights := [sampleLight], ping_failures := [] }, [], Outcome.unknownDevice) ∧
    (mqtt_on_message { all_lights := [sampleLight], ping_failures := [] } "power" "SN999" "on"
        sampleResponses).snd.fst.countP isDiscoveryRequest = 0 := by
  constructor
  · decide
  · decide

/-- C9 counterexample: the registry holds AB12 with failure counter 2; a
successful rediscovery of AB12 at a new address performs the upsert (the
record is replaced by the rediscovered one) yet the failure counter stays
at 2 instead of resetting to zero. -/
theorem rediscovery_leaves_failures_cex :
    (discover_lights { all_lights := [sampleLight], ping_failures := [("AB12", 2)] }
        [movedLight]).all_lights = [movedLight] ∧
    getFailures (discover_lights { all_lights := [sampleLight], ping_failures := [("AB12", 2)] }
        [movedLight]).ping_failures "AB12" = 2 := by
  constructor
  · decide
  · rfl

/-- C9 amended: a discovery merge never touches the failure counters:
ping_failures is preserved verbatim by every discovery pass, successful
rediscoveries included; the counter resets to zero only when a cleanup
pass finds the device responsive. -/
theorem discover_preserves_ping_failures (s : MainState) (discovered : List Light) :
    (discover_lights s discovered).ping_failures = s.ping_failures := rfl

/-- C7 counterexample: AB12 relocates; the next merge installs the freshly
discovered object wholesale: the address is updated and the serial kept,
but the cached status is the one fetched at the new location rather than
the preserved old status, and the static metadata (firmwareVersion) is the
re-fetched value as well. -/
theorem relocation_discards_status_cex :
    (discover_lights { all_lights := [sampleLight], ping_failures := [] }
        [movedLight]).all_lights = [movedLight] ∧
    movedLight.serialNumber = sampleLight.serialNumber ∧
    movedLight.address ≠ sampleLight.address ∧
    movedLight.status ≠ sampleLight.status ∧
    movedLight.firmwareVersion ≠ sampleLight.firmwareVersion := by
  decide

/-- C2 counterexample: a cleanup pass whose probe of AB12 returns an
unsuccessful non-raising result evicts the light immediately: only one
probe failed, and the consecutive-failure counter is 0 before and after
the pass — the threshold of 3 was never reached. -/
theorem cleanup_one_failure_evicts_cex :
    (cleanup_lights (fun _ => ProbeResult.notOk)
        { all_lights := [sampleLight], ping_failures := [] }).all_lights = [] ∧
    getFailures (cleanup_lights (fun _ => ProbeResult.notOk)
        { all_lights := [sampleLight], ping_failures := [] }).ping_failures "AB12" = 0 := by
  decide

/-- C5 amended: the message handler never requests an on-demand discovery
pass â for every state and message its trace contains no discovery-request
event; an unresolved serial is reported unknown after the single registry
lookup and handling stops (discovery re-runs only from the main loop's
periodic discover_lights call). -/
theorem dispatch_never_requests_discovery
    (s : MainState) (what serial value : String) (dev : DeviceResponses) (ser : String) :
    Event.discoveryRequest ser ∉ (mqtt_on_message s what serial value dev).snd.fst := by
  unfold mqtt_on_message
  cases hf : s.all_lights.find? (fun l => lowerStr l.serialNumber = lowerStr serial) with
  | none => simp
  | some light =>
    dsimp only
    split
    · simp
    · repeat' split
      all_goals simp

theorem serialsLower_append (a b : List Light) :
    serialsLower (a ++ b) = serialsLower a ++ serialsLower b := by
  simp [serialsLower]

theorem uniqueSerials_replace {lights : List Light} {x nl : Light}
    (hx : x ∈ lights) (hser : lowerStr x.serialNumber = lowerStr nl.serialNumber)
    (hu : uniqueSerials lights) : uniqueSerials (lights.erase x ++ [nl]) := by
  have hperm2 : (serialsLower lights).Perm
      (lowerStr x.serialNumber :: serialsLower (lights.erase x)) := by
    simpa [serialsLower] using (List.perm_cons_erase hx).map (fun l => lowerStr l.serialNumber)
  have hu2 := (hperm2.nodup_iff).mp hu
  rw [List.nodup_cons] at hu2
  unfold uniqueSerials
  rw [serialsLower_append]
  refine List.Nodup.append hu2.2 ?_ ?_
  · simp [serialsLower]
  · intro a ha hb
    have hab : a = lowerStr nl.serialNumber := by simpa [serialsLower] using hb
    rw [hab, ← hser] at ha
    exact hu2.1 ha

theorem updateLoop_uniqueSerials (nl : Light) :
    ∀ (fuel i : Nat) (lights : List Light), uniqueSerials lights →
      uniqueSerials (updateLoop nl fuel i lights) := by
  intro fuel
  induction fuel with
  | zero => intro i lights hu; simpa [updateLoop] using hu
  | succ fuel ih =>
    intro i lights hu
    rw [updateLoop]
    by_cases h : i < lights.length
    · rw [dif_pos h]
      by_cases hw : wantsUpdate nl (lights.get ⟨i, h⟩)
      · rw [if_pos hw]
        exact ih _ _ (uniqueSerials_replace (lights.get_mem i h) hw.1 hu)
      · rw [if_neg hw]
        exact ih _ _ hu
    · rw [dif_neg h]
      exact hu

theorem mergeLight_uniqueSerials {lights : List Light} (nl : Light)
    (hu : uniqueSerials lights) : uniqueSerials (mergeLight lights nl) := by
  unfold mergeLight
  split
  · exact updateLoop_uniqueSerials nl _ _ _ hu
  · rename_i hnot
    unfold uniqueSerials
    rw [serialsLower_append]
    refine List.Nodup.append hu ?_ ?_
    · simp [serialsLower]
    · intro a ha hb
      have hab : a = lowerStr nl.serialNumber := by simpa [serialsLower] using hb
      rw [hab] at ha
      exact hnot ha

theorem foldl_mergeLight_uniqueSerials :
    ∀ (discovered lights : List Light), uniqueSerials lights →
      uniqueSerials (discovered.foldl mergeLight lights)
  | [], _, hu => hu
  | d :: ds, lights, hu =>
    foldl_mergeLight_uniqueSerials ds (mergeLight lights d) (mergeLight_uniqueSerials d hu)

theorem discover_lights_uniqueSerials (s : MainState) (discovered : List Light)
    (hu : uniqueSerials s.all_lights) :
    uniqueSerials (discover_lights s discovered).all_lights :=
  foldl_mergeLight_uniqueSerials discovered s.all_lights hu

/-- C3: after any sequence of discovery merges starting from the program's
empty initial registry, and for arbitrary discovery snapshots, all_lights
never contains two entries whose serial numbers are equal
case-insensitively. -/
theorem discover_registry_unique_serials (passes : List (List Light)) :
    ((passes.foldl discover_lights { all_lights := [], ping_failures := [] }).all_lights).Pairwise
      (fun a b => lowerStr a.serialNumber ≠ lowerStr b.serialNumber) := by
  have huniq : ∀ (ps : List (List Light)) (s : MainState), uniqueSerials s.all_lights →
      uniqueSerials ((ps.foldl discover_lights s).all_lights) := by
    intro ps
    induction ps with
    | nil => intro s hu; exact hu
    | cons p ps ih =>
      intro s hu
      exact ih _ (discover_lights_uniqueSerials s p hu)
  have h := huniq passes { all_lights := [], ping_failures := [] }
    (by simp [uniqueSerials, serialsLower])
  simpa [uniqueSerials, serialsLower, List.Nodup, List.pairwise_map] using h

theorem updateLoop_no_change (nl : Light) {lights : List Light}
    (h : ∀ x ∈ lights, ¬ wantsUpdate nl x) :
    ∀ (fuel i : Nat), updateLoop nl fuel i lights = lights := by
  intro fuel
  induction fuel with
  | zero => intro i; rfl
  | succ fuel ih =>
    intro i
    rw [updateLoop]
    by_cases hlt : i < lights.length
    · rw [dif_pos hlt, if_neg (h _ (lights.get_mem i hlt))]
      exact ih (i + 1)
    · rw [dif_neg hlt]

theorem uniqueSerials_serial_inj {lights : List Light} (hu : uniqueSerials lights)
    {x y : Light} (hx : x ∈ lights) (hy : y ∈ lights)
    (h : lowerStr x.serialNumber = lowerStr y.serialNumber) : x = y :=
  List.inj_on_of_nodup_map hu hx hy h

theorem mergeLight_unchanged {lights : List Light} {cand r : Light}
    (hu : uniqueSerials lights) (hr : r ∈ lights)
    (hser : lowerStr r.serialNumber = lowerStr cand.serialNumber)
    (haddr : r.address = cand.address) (hport : r.port = cand.port) :
    mergeLight lights cand = lights := by
  unfold mergeLight
  rw [if_pos (List.mem_map.mpr ⟨r, hr, hser⟩)]
  apply updateLoop_no_change
  intro x hx hw
  have hxr : x = r := uniqueSerials_serial_inj hu hx hr (hw.1.trans hser.symm)
  subst hxr
  rcases hw.2 with hca | hcp
  · exact hca haddr
  · exact hcp hport
theorem foldl_mergeLight_unchanged :
    ∀ (snapshot lights : List Light), uniqueSerials lights →
      (∀ c ∈ snapshot, ∃ r ∈ lights,
          lowerStr r.serialNumber = lowerStr c.serialNumber ∧
          r.address = c.address ∧ r.port = c.port) →
      snapshot.foldl mergeLight lights = lights
  | [], _, _, _ => rfl
  | c :: cs, lights, hu, h => by
    obtain ⟨r, hr, hser, haddr, hport⟩ := h c (by simp)
    rw [List.foldl_cons, mergeLight_unchanged hu hr hser haddr hport]
    exact foldl_mergeLight_unchanged cs lights hu (fun x hx => h x (by simp [hx]))

/-- C8: merging a discovery snapshot whose candidates all reproduce an
existing record's serial (case-insensitively), address and port leaves the
whole state unchanged — in particular the failure counter and the cached
status fields of every such record are untouched: the merge is idempotent
for unchanged candidates. -/
theorem merge_idempotent_unchanged_candidates
    (s : MainState) (snapshot : List Light)
    (hu : uniqueSerials s.all_lights)
    (h : ∀ c ∈ snapshot, ∃ r ∈ s.all_lights,
        lowerStr r.serialNumber = lowerStr c.serialNumber ∧
        r.address = c.address ∧ r.port = c.port) :
    discover_lights s snapshot = s := by
  unfold discover_lights
  rw [foldl_mergeLight_unchanged snapshot s.all_lights hu h]

/-- Witness for merge_idempotent_unchanged_candidates: rediscovering AB12
at its recorded address and port changes nothing. -/
theorem merge_idempotent_unchanged_candidates_witness :
    (uniqueSerials [sampleLight] ∧
      ∀ c ∈ [rediscoveredLight], ∃ r ∈ [sampleLight],
        lowerStr r.serialNumber = lowerStr c.serialNumber ∧
        r.address = c.address ∧ r.port = c.port) ∧
    discover_lights { all_lights := [sampleLight], ping_failures := [("AB12", 1)] }
        [rediscoveredLight] =
      { all_lights := [sampleLight], ping_failures := [("AB12", 1)] } :=
  ⟨⟨by decide, by decide⟩,
   merge_idempotent_unchanged_candidates _ _ (by decide) (by decide)⟩

theorem updateLoop_replace {lights : List Light} {cand r : Light}
    (hnodup : lights.Nodup)
    (honly : ∀ x ∈ lights, wantsUpdate cand x → x = r)
    (hcand : ¬ wantsUpdate cand cand) (hwr : wantsUpdate cand r) :
    ∀ (fuel i : Nat), lights.length ≤ fuel + i → r ∈ lights.drop i →
      updateLoop cand fuel i lights = lights.erase r ++ [cand] := by
  intro fuel
  induction fuel with
  | zero =>
    intro i hle hmem
    rw [List.drop_eq_nil_of_le (by omega)] at hmem
    exact absurd hmem (List.not_mem_nil r)
  | succ fuel ih =>
    intro i hle hmem
    have hlt : i < lights.length := by
      by_contra hge
      rw [List.drop_eq_nil_of_le (by omega)] at hmem
      exact absurd hmem (List.not_mem_nil r)
    rw [updateLoop, dif_pos hlt]
    by_cases hx : lights.get ⟨i, hlt⟩ = r
    · rw [if_pos (by rw [hx]; exact hwr), hx]
      apply updateLoop_no_change
      intro x hxm
      rcases List.mem_append.mp hxm with hxe | hxc
      · have hxr := (hnodup.mem_erase_iff).mp hxe
        intro hw
        exact hxr.1 (honly x hxr.2 hw)
      · have hxc2 : x = cand := by simpa using hxc
        rw [hxc2]
        exact hcand
    · have hnw : ¬ wantsUpdate cand (lights.get ⟨i, hlt⟩) := fun hw =>
        hx (honly _ (lights.get_mem i hlt) hw)
      rw [if_neg hnw]
      apply ih (i + 1) (by omega)
      have hdrop : lights.drop i = lights.get ⟨i, hlt⟩ :: lights.drop (i + 1) := by
        rw [List.get_eq_getElem]
        exact List.drop_eq_getElem_cons hlt
      rw [hdrop] at hmem
      rcases List.mem_cons.mp hmem with h1 | h2
      · exact absurd h1.symm hx
      · exact h2

/-- C7 amended: when a snapshot candidate matches a known serial at a
different address or port, the merge removes the old record and appends
the freshly discovered object: the case-insensitive serial is preserved
and address/port updated, but the cached status and the static metadata of
the surviving record are the candidate's — fetched anew by the discovery
constructor (metadata is re-fetched) — not the old record's. -/
theorem relocation_replaces_record {lights : List Light} {cand r : Light}
    (hu : uniqueSerials lights) (hr : r ∈ lights)
    (hser : lowerStr r.serialNumber = lowerStr cand.serialNumber)
    (hmoved : r.address ≠ cand.address ∨ r.port ≠ cand.port) :
    mergeLight lights cand = lights.erase r ++ [cand] := by
  unfold mergeLight
  rw [if_pos (List.mem_map.mpr ⟨r, hr, hser⟩)]
  apply updateLoop_replace (List.Nodup.of_map _ hu) ?_ ?_ ⟨hser, hmoved⟩ lights.length 0
    (by omega) (by simpa using hr)
  · intro x hx hw
    exact uniqueSerials_serial_inj hu hx hr (hw.1.trans hser.symm)
  · intro hw
    rcases hw.2 with hca | hcp
    · exact hca rfl
    · exact hcp rfl

/-- Witness for relocation_replaces_record: AB12 relocating from
192.168.1.10 to 10.0.0.9. -/
theorem relocation_replaces_record_witness :
    (uniqueSerials [sampleLight] ∧ sampleLight ∈ [sampleLight] ∧
      lowerStr sampleLight.serialNumber = lowerStr movedLight.serialNumber ∧
      (sampleLight.address ≠ movedLight.address ∨ sampleLight.port ≠ movedLight.port)) ∧
    mergeLight [sampleLight] movedLight = [sampleLight].erase sampleLight ++ [movedLight] :=
  ⟨⟨by decide, by decide, by decide, by decide⟩,
   relocation_replaces_record (by decide) (by decide) (by decide) (by decide)⟩

theorem getFailures_cons (p : String × Nat) (rest : List (String × Nat)) (q : String) :
    getFailures (p :: rest) q = if p.fst = q then p.snd else getFailures rest q := by
  by_cases h : p.fst = q
  · simp [getFailures, List.find?, h]
  · simp [getFailures, List.find?, h]

theorem getFailures_setFailures (m : List (String × Nat)) (k : String) (v : Nat) (q : String) :
    getFailures (setFailures m k v) q = if q = k then v else getFailures m q := by
  induction m with
  | nil =>
    rw [show setFailures [] k v = [(k, v)] from rfl, getFailures_cons]
    by_cases h : q = k
    · rw [if_pos h.symm, if_pos h]
    · rw [if_neg (fun hh : k = q => h hh.symm), if_neg h]
  | cons p rest ih =>
    by_cases hpk : p.fst = k
    · rw [show setFailures (p :: rest) k v = (k, v) :: rest from by simp [setFailures, hpk]]
      rw [getFailures_cons, getFailures_cons]
      by_cases h : q = k
      · rw [if_pos h.symm, if_pos h]
      · rw [if_neg (fun hh : k = q => h hh.symm), if_neg h,
          if_neg (fun hh : p.fst = q => h (hh.symm.trans hpk))]
    · rw [show setFailures (p :: rest) k v = p :: setFailures rest k v from by
        simp [setFailures, hpk]]
      rw [getFailures_cons, getFailures_cons, ih]
      by_cases hq : p.fst = q
      · rw [if_pos hq, if_neg (fun hh : q = k => hpk (hq.trans hh)), if_pos hq]
      · rw [if_neg hq]
        by_cases h : q = k
        · rw [if_pos h, if_pos h]
        · rw [if_neg h, if_neg h, if_neg hq]
theorem is_light_responsive_false_iff (m : List (String × Nat)) (l : Light)
    (pr : ProbeResult) :
    ((is_light_responsive m l pr).fst = false ↔
      pr = ProbeResult.notOk ∨ pr = ProbeResult.reqExc ∨
        (pr = ProbeResult.otherExc ∧ 3 ≤ getFailures m l.serialNumber + 1)) := by
  cases pr with
  | ok => simp [is_light_responsive, pingResult]
  | notOk => simp [is_light_responsive, pingResult]
  | reqExc => simp [is_light_responsive, pingResult]
  | otherExc =>
    simp [is_light_responsive, pingResult]

theorem is_light_responsive_snd_other (m : List (String × Nat)) (l : Light)
    (pr : ProbeResult) (k : String) (hk : l.serialNumber ≠ k) :
    getFailures (is_light_responsive m l pr).snd k = getFailures m k := by
  cases pr <;>
    simp [is_light_responsive, pingResult, getFailures_setFailures, Ne.symm hk]

theorem cleanupLoop_fst_sublist (probes : Light → ProbeResult) :
    ∀ (lights : List Light) (m : List (String × Nat)),
      (cleanupLoop probes lights m).fst.Sublist lights := by
  intro lights
  induction lights with
  | nil => intro m; simp [cleanupLoop]
  | cons l rest ih =>
    intro m
    simp only [cleanupLoop]
    split
    · exact List.Sublist.cons _ (ih _)
    · exact List.Sublist.cons₂ _ (ih _)

theorem cleanupLoop_failures_other (probes : Light → ProbeResult) (k : String) :
    ∀ (lights : List Light) (m : List (String × Nat)),
      (∀ l ∈ lights, l.serialNumber ≠ k) →
      getFailures (cleanupLoop probes lights m).snd k = getFailures m k := by
  intro lights
  induction lights with
  | nil => intro m _; rfl
  | cons l rest ih =>
    intro m h
    have hlk : l.serialNumber ≠ k := h l (List.mem_cons_self _ _)
    simp only [cleanupLoop]
    rw [ih _ (fun x hx => h x (List.mem_cons_of_mem _ hx))]
    split
    · rw [getFailures_setFailures, if_neg (Ne.symm hlk)]
      exact is_light_responsive_snd_other m l (probes l) k hlk
    · exact is_light_responsive_snd_other m l (probes l) k hlk
theorem cleanupLoop_mem_fst_iff (probes : Light → ProbeResult) (L : Light) :
    ∀ (lights : List Light) (m : List (String × Nat)),
      (lights.map (fun l => l.serialNumber)).Nodup → L ∈ lights →
      (L ∈ (cleanupLoop probes lights m).fst ↔
        probes L = ProbeResult.notOk ∨ probes L = ProbeResult.reqExc ∨
          (probes L = ProbeResult.otherExc ∧
            3 ≤ getFailures m L.serialNumber + 1)) := by
  intro lights
  induction lights with
  | nil => intro m _ hL; cases hL
  | cons l rest ih =>
    intro m hnd hL
    rw [List.map_cons, List.nodup_cons] at hnd
    simp only [cleanupLoop]
    rcases List.mem_cons.mp hL with rfl | hLrest
    · -- L is the head
      have hnt : ∀ m', L ∉ (cleanupLoop probes rest m').fst := fun m' hc =>
        hnd.1 (List.mem_map_of_mem _ ((cleanupLoop_fst_sublist probes rest m').subset hc))
      by_cases hstep : (is_light_responsive m L (probes L)).fst = true
      · rw [if_pos hstep]
        refine iff_of_false (hnt _) ?_
        rw [← is_light_responsive_false_iff m L (probes L)]
        simp [hstep]
      · have hstep2 : (is_light_responsive m L (probes L)).fst = false :=
          Bool.not_eq_true _ ▸ hstep
        rw [if_neg hstep]
        exact iff_of_true (List.mem_cons_self _ _)
          ((is_light_responsive_false_iff m L (probes L)).mp hstep2)
    · -- L is further down
      have hser : l.serialNumber ≠ L.serialNumber := fun he =>
        hnd.1 (he ▸ List.mem_map_of_mem _ hLrest)
      have hlL : l ≠ L := fun he => hser (by rw [he])
      have key : ∀ m2, getFailures m2 L.serialNumber = getFailures m L.serialNumber →
          (L ∈ (cleanupLoop probes rest m2).fst ↔
            probes L = ProbeResult.notOk ∨ probes L = ProbeResult.reqExc ∨
              (probes L = ProbeResult.otherExc ∧
                3 ≤ getFailures m L.serialNumber + 1)) := by
        intro m2 hm2
        rw [ih m2 hnd.2 hLrest, hm2]
      by_cases hstep : (is_light_responsive m l (probes l)).fst = true
      · simp only [if_pos hstep]
        refine key _ ?_
        rw [getFailures_setFailures, if_neg (Ne.symm hser)]
        exact is_light_responsive_snd_other m l (probes l) _ hser
      · simp only [if_neg hstep]
        rw [List.mem_cons]
        rw [key _ (is_light_responsive_snd_other m l (probes l) _ hser)]
        simp [Ne.symm hlL]
  
theorem cleanupLoop_reset (probes : Light → ProbeResult) (L : Light) :
    ∀ (lights : List Light) (m : List (String × Nat)),
      (lights.map (fun l => l.serialNumber)).Nodup → L ∈ lights →
      probes L = ProbeResult.ok →
      getFailures (cleanupLoop probes lights m).snd L.serialNumber = 0 := by
  intro lights
  induction lights with
  | nil => intro m _ hL; cases hL
  | cons l rest ih =>
    intro m hnd hL hok
    rw [List.map_cons, List.nodup_cons] at hnd
    simp only [cleanupLoop]
    rcases List.mem_cons.mp hL with rfl | hLrest
    · -- L is the head: responsive, counter set to 0, untouched afterwards
      have hrest : ∀ x ∈ rest, x.serialNumber ≠ L.serialNumber := fun x hx he =>
        hnd.1 (he ▸ List.mem_map_of_mem _ hx)
      rw [hok]
      simp only [is_light_responsive, pingResult]
      rw [if_pos trivial]
      rw [cleanupLoop_failures_other probes L.serialNumber rest _ hrest]
      rw [getFailures_setFailures, if_pos rfl]
    · rw [ih _ hnd.2 hLrest hok]
theorem mem_foldl_erase {α : Type} [DecidableEq α] :
    ∀ (toRemove l : List α), l.Nodup → ∀ x : α,
      (x ∈ toRemove.foldl (fun acc y => acc.erase y) l ↔ x ∈ l ∧ x ∉ toRemove)
  | [], l, _, x => by simp
  | y :: ys, l, hnd, x => by
    rw [List.foldl_cons]
    rw [mem_foldl_erase ys (l.erase y) (hnd.erase y) x]
    rw [hnd.mem_erase_iff]
    simp only [List.mem_cons, not_or]
    constructor
    · rintro ⟨⟨hxy, hxl⟩, hys⟩
      exact ⟨hxl, hxy, hys⟩
    · rintro ⟨hxl, hxy, hys⟩
      exact ⟨⟨hxy, hxl⟩, hys⟩

/-- C2 amended: a cleanup pass evicts a registry light exactly when its
probe fails — either by returning an unsuccessful result (non-200 status,
or a RequestException caught inside ping), which evicts immediately
regardless of the counter, or by raising another exception when the
incremented consecutive-failure counter reaches 3.  Only raising probes
increment the counter; a cleanup probe that succeeds resets the light's
counter to zero. -/
theorem cleanup_eviction_characterization
    (probes : Light → ProbeResult) (s : MainState) (L : Light)
    (hnd : (s.all_lights.map (fun l => l.serialNumber)).Nodup)
    (hL : L ∈ s.all_lights) :
    (L ∉ (cleanup_lights probes s).all_lights ↔
      probes L = ProbeResult.notOk ∨ probes L = ProbeResult.reqExc ∨
        (probes L = ProbeResult.otherExc ∧
          3 ≤ getFailures s.ping_failures L.serialNumber + 1)) ∧
    (probes L = ProbeResult.ok →
      getFailures (cleanup_lights probes s).ping_failures L.serialNumber = 0) := by
  have hiff := cleanupLoop_mem_fst_iff probes L s.all_lights s.ping_failures hnd hL
  constructor
  · unfold cleanup_lights
    dsimp only
    rw [mem_foldl_erase _ _ (List.Nodup.of_map _ hnd) L]
    push_neg
    constructor
    · intro h
      exact hiff.mp (h hL)
    · intro h _
      exact hiff.mpr h
  · intro hok
    unfold cleanup_lights
    dsimp only
    exact cleanupLoop_reset probes L s.all_lights s.ping_failures hnd hL hok

/-- Witness for cleanup_eviction_characterization: AB12 with counter 2
probed with a raising failure — the incremented counter reaches 3 and the
device is evicted. -/
theorem cleanup_eviction_characterization_witness :
    ((([sampleLight] : List Light).map (fun l => l.serialNumber)).Nodup ∧
      sampleLight ∈ [sampleLight]) ∧
    (sampleLight ∉ (cleanup_lights (fun _ => ProbeResult.otherExc)
          { all_lights := [sampleLight], ping_failures := [("AB12", 2)] }).all_lights ↔
        ProbeResult.otherExc = ProbeResult.notOk ∨
        ProbeResult.otherExc = ProbeResult.reqExc ∨
        (ProbeResult.otherExc = ProbeResult.otherExc ∧
          3 ≤ getFailures [("AB12", 2)] sampleLight.serialNumber + 1)) ∧
    (ProbeResult.otherExc = ProbeResult.ok →
      getFailures (cleanup_lights (fun _ => ProbeResult.otherExc)
          { all_lights := [sampleLight], ping_failures := [("AB12", 2)] }).ping_failures
        sampleLight.serialNumber = 0) :=
  ⟨⟨by decide, by decide⟩,
   cleanup_eviction_characterization (fun _ => ProbeResult.otherExc)
     { all_lights := [sampleLight], ping_failures := [("AB12", 2)] } sampleLight
     (by decide) (by decide)⟩

end ElgatoKeyLight
